import Mathlib

/-!
Shallow embedding of the cosm-orc chain client (`src/client/cosm_client.rs`).

The client drives four operations (store, instantiate, execute, query) against
a Cosmos chain. Transport, protobuf codecs and cryptographic signing are
external collaborators; they are modelled by a deterministic per-run oracle
(`ChainOracle`) holding the outcome of each endpoint the client calls — the
decoded result for the account and simulate endpoints, and for the
smart-contract-state endpoint the raw ABCI response (result code plus value
bytes) together with the graph of the external prost codec on those bytes.
Each operation returns, next to its `Except` result, the ordered list of
externally observable interactions (`Call`) it performed, so that frame
properties (which endpoints are hit, and in what order) are provable.

Rust `f64` configuration values and the gas arithmetic on them are modelled as
exact rationals; Rust `u64` values as `Nat` with explicit saturation where the
code casts. A Rust panic (`unwrap` on `None`) is modelled by the distinguished
error `CosmError.panicked`, kept apart from `anyhow` errors propagated with the
question-mark operator.
-/

namespace CosmOrc

/-- ABCI result code (tendermint `abci::Code`): `ok` is code 0, `err n` a
non-zero code `n`. -/
inductive Code where
  | ok : Code
  | err : Nat → Code
deriving DecidableEq

/-- Mirror of `Code::is_err` from tendermint-rs: true exactly on non-zero codes. -/
def Code.is_err : Code → Bool
  | .ok => false
  | .err _ => true

/-- A key/value attribute of an emitted event (tendermint `abci::tag::Tag`). -/
structure Tag where
  key : String
  value : String
deriving DecidableEq

/-- An emitted ABCI event: a type name plus its ordered attribute list. -/
structure Event where
  type_str : String
  attributes : List Tag
deriving DecidableEq

/-- Result `TxResult` of one broadcast phase; the field defaults mirror the Rust
`Default::default()` used by `query`. -/
structure TxResult where
  code : Code := .ok
  data : Option (List Nat) := none
  log : String := ""
  info : String := ""
  gas_wanted : Int := 0
  gas_used : Int := 0
  events : List Event := []
  codespace : String := ""
deriving DecidableEq

/-- Commit response `tx_commit::Response`: the mempool-admission (`check_tx`) and
block-inclusion (`deliver_tx`) phases plus hash/height metadata. -/
structure Response where
  check_tx : TxResult
  deliver_tx : TxResult
  hash : String := ""
  height : Nat := 0
deriving DecidableEq

/-- Decoded `cosmos.auth.v1beta1.BaseAccount`. -/
structure BaseAccount where
  address : String
  account_number : Nat
  sequence : Nat
deriving DecidableEq

/-- Decoded `GasInfo` of a `SimulateResponse`. -/
structure GasInfo where
  gas_wanted : Nat
  gas_used : Nat
deriving DecidableEq

/-- A fee coin. -/
structure Coin where
  denom : String
  amount : Nat
deriving DecidableEq

/-- Fee `cosmrs::tx::Fee` as built by `Fee::from_amount_and_gas`. -/
structure Fee where
  amount : List Coin
  gas_limit : Nat
deriving DecidableEq

/-- Chain configuration (`config/cfg.rs` lies outside the given sources; the
fields are the ones this file reads). `f64` fields are exact rationals here. -/
structure ChainCfg where
  denom : String
  chain_id : String
  gas_prices : ℚ
  gas_adjustment : ℚ
deriving DecidableEq

/-- Signing key: the cryptography is an external black box, so only the derived
sender address is kept. -/
structure SigningKey where
  address : String
deriving DecidableEq

/-- The contract-lifecycle messages the four operations build (protobuf
encoding of these is an external codec). -/
inductive CosmMsg where
  | storeCode (sender : String) (wasm_byte_code : List Nat)
  | instantiateContract (sender : String) (code_id : Nat) (label : Option String)
      (msg : List Nat)
  | executeContract (sender : String) (contract : String) (msg : List Nat)
deriving DecidableEq

/-- Failure outcomes of one operation. `panicked` models a Rust `unwrap`
panic; every other constructor models an `anyhow` error propagated with the
question-mark operator or `bail!`/`context`. -/
inductive CosmError where
  | transportErr (path : String)
  | decodeErr (what : String)
  | cannotFetchAccount
  | simulationFailed
  | checkTxFailed (res : TxResult)
  | deliverTxFailed (res : TxResult)
  | eventNotFound (ctx : String)
  | malformedField (value : String)
  | panicked (msg : String)
deriving DecidableEq

/-- Whether an error models a Rust panic rather than a reported error. -/
def CosmError.isPanic : CosmError → Bool
  | .panicked _ => true
  | _ => false

/-- One externally observable interaction of the client, in program order. -/
inductive Call where
  | abciQuery (path : String)
  | sign (account_number : Nat) (sequence : Nat)
  | broadcastCommit
deriving DecidableEq

def accountPath : String := "/cosmos.auth.v1beta1.Query/Account"
def simulatePath : String := "/cosmos.tx.v1beta1.Service/Simulate"
def smartQueryPath : String := "/cosmwasm.wasm.v1.Query/SmartContractState"

/-- Response of the `abci_query` endpoint as this client sees it: the chain's
result code for the query and the raw response value bytes (the other fields
are never read by this file). A chain-side rejected query arrives as a normal
response with a non-zero `code` and an empty `value`, not as a transport
error. -/
structure AbciQuery where
  code : Code
  value : List Nat
deriving DecidableEq

/-- Deterministic oracle for the transport/codec black box during one run.
For the account and simulate endpoints the oracle holds the decoded result
(an `Except.error` covers transport and protobuf-decoding failures of that
call; the reachable decode outcomes are captured by the `Option`, since those
response fields are optional and an empty buffer decodes to `none`). For the
smart-contract-state endpoint the oracle holds the raw ABCI response —
`.error` only for a transport failure, the question-mark at the `abci_query`
call — together with the graph of the external prost codec on value bytes. -/
structure ChainOracle where
  accountResult : Except CosmError (Option BaseAccount)
  simulateResult : Except CosmError (Option GasInfo)
  broadcastResult : Response
  smartQueryResult : Except CosmError AbciQuery
  /-- Graph of `QuerySmartContractStateResponse::decode` on raw value bytes,
  yielding the `data` payload; `.error` models a prost decode failure.
  Protobuf laws such as "the empty buffer decodes to the default message,
  whose data is empty" are stated as hypotheses where a theorem needs them. -/
  decodeSmart : List Nat → Except CosmError (List Nat)

/-- The client: immutable configuration plus the transport oracle standing in
for the `HttpClient`. It holds no other state. -/
structure CosmClient where
  cfg : ChainCfg
  chain : ChainOracle

/-- Rust `as u64` on an integral `f64`: a saturating cast. -/
def f64AsU64 (z : ℤ) : Nat := if z < 0 then 0 else min z.toNat (2 ^ 64 - 1)

/-- Mirror of `CosmClient::account`: one query to the auth endpoint; a missing account in
the decoded response is the "cannot fetch account" error. -/
def CosmClient.account (c : CosmClient) : Except CosmError BaseAccount × List Call :=
  match c.chain.accountResult with
  | .error e => (.error e, [.abciQuery accountPath])
  | .ok none => (.error .cannotFetchAccount, [.abciQuery accountPath])
  | .ok (some acct) => (.ok acct, [.abciQuery accountPath])

/-- Mirror of `CosmClient::simulate_gas_fee`: sign a zero-fee probe transaction with the
resolved account's sequence, call the simulate endpoint, then compute
`gas_limit = (gas_used as f64 * gas_adjustment).ceil()` and
`amount = ((gas_limit * gas_prices).ceil() as u64)`; a missing `gas_info` is
the "error simulating tx" failure. -/
def CosmClient.simulate_gas_fee (c : CosmClient) (account : BaseAccount) :
    Except CosmError Fee × List Call :=
  match c.chain.simulateResult with
  | .error e =>
      (.error e,
       [.sign account.account_number account.sequence, .abciQuery simulatePath])
  | .ok none =>
      (.error .simulationFailed,
       [.sign account.account_number account.sequence, .abciQuery simulatePath])
  | .ok (some gas_info) =>
      (.ok { amount := [{ denom := c.cfg.denom
                          amount := f64AsU64 ⌈(⌈(gas_info.gas_used : ℚ) * c.cfg.gas_adjustment⌉ : ℚ) *
                            c.cfg.gas_prices⌉ }]
             gas_limit := f64AsU64 ⌈(gas_info.gas_used : ℚ) * c.cfg.gas_adjustment⌉ },
       [.sign account.account_number account.sequence, .abciQuery simulatePath])

/-- Mirror of `CosmClient::send_tx`: resolve the account, simulate the fee, sign with the
resolved sequence, broadcast-commit, then inspect the check phase and the
deliver phase in that order, failing on the first non-OK code. -/
def CosmClient.send_tx (c : CosmClient) (_msg : CosmMsg) (_key : SigningKey) :
    Except CosmError Response × List Call :=
  match c.chain.accountResult with
  | .error e => (.error e, [.abciQuery accountPath])
  | .ok none => (.error .cannotFetchAccount, [.abciQuery accountPath])
  | .ok (some account) =>
      match c.simulate_gas_fee account with
      | (.error e, simCalls) => (.error e, .abciQuery accountPath :: simCalls)
      | (.ok _fee, simCalls) =>
          if c.chain.broadcastResult.check_tx.code.is_err then
            (.error (.checkTxFailed c.chain.broadcastResult.check_tx),
             .abciQuery accountPath :: simCalls ++
               [.sign account.account_number account.sequence, .broadcastCommit])
          else if c.chain.broadcastResult.deliver_tx.code.is_err then
            (.error (.deliverTxFailed c.chain.broadcastResult.deliver_tx),
             .abciQuery accountPath :: simCalls ++
               [.sign account.account_number account.sequence, .broadcastCommit])
          else
            (.ok c.chain.broadcastResult,
             .abciQuery accountPath :: simCalls ++
               [.sign account.account_number account.sequence, .broadcastCommit])

/-- The loop of `CosmClient::find_event`: scan a list of events in order and
return the first one whose type equals the given name. -/
def findEventIn : List Event → String → Option Event
  | [], _ => none
  | e :: rest, key_name =>
      if e.type_str = key_name then some e else findEventIn rest key_name

/-- Mirror of `CosmClient::find_event`: scan the deliver phase's events. -/
def CosmClient.find_event (_c : CosmClient) (res : Response) (key_name : String) :
    Option Event :=
  findEventIn res.deliver_tx.events key_name

/-- Mirror of `attributes.iter().find(|a| a.key == k)`: first attribute with that key. -/
def findAttr : List Tag → String → Option Tag
  | [], _ => none
  | a :: rest, k => if a.key = k then some a else findAttr rest k

/-- Drop one leading plus sign, as Rust's unsigned `from_str` does. -/
def stripPlus : List Char → List Char
  | [] => []
  | c :: rest => if c = '+' then rest else c :: rest

/-- Rust `str::parse::<u64>()` on a character list: an optional leading plus
sign, then one or more ASCII digits, and the value must fit in 64 bits. -/
def parseU64Chars (cs : List Char) : Option Nat :=
  if (stripPlus cs).isEmpty then none
  else if (stripPlus cs).all (fun c => c.isDigit) then
    if (stripPlus cs).foldl (fun acc c => acc * 10 + (c.toNat - 48)) 0 < 2 ^ 64 then
      some ((stripPlus cs).foldl (fun acc c => acc * 10 + (c.toNat - 48)) 0)
    else none
  else none

/-- Rust `str::parse::<u64>()`. -/
def parseU64 (s : String) : Option Nat := parseU64Chars s.data

/-- Result of `store`. -/
structure StoreCodeResponse where
  code_id : Nat
  data : TxResult
deriving DecidableEq

/-- Result of `instantiate`. -/
structure InstantiateResponse where
  address : String
  data : TxResult
deriving DecidableEq

/-- Result of `execute`. -/
structure ExecResponse where
  data : TxResult
deriving DecidableEq

/-- Result of `query`. -/
structure QueryResponse where
  data : TxResult
deriving DecidableEq

/-- Mirror of `CosmClient::store`: send a `MsgStoreCode`, find the first `store_code`
event of the deliver phase ("error storing code" context when absent), take
its `code_id` attribute with `unwrap` (a panic when absent) and parse it as a
`u64` (a reported error when unparseable). -/
def CosmClient.store (c : CosmClient) (payload : List Nat) (signing_key : SigningKey) :
    Except CosmError StoreCodeResponse × List Call :=
  match c.send_tx (.storeCode signing_key.address payload) signing_key with
  | (.error e, calls) => (.error e, calls)
  | (.ok tx_res, calls) =>
      match c.find_event tx_res "store_code" with
      | none => (.error (.eventNotFound "error storing code"), calls)
      | some res =>
          match findAttr res.attributes "code_id" with
          | none => (.error (.panicked "called unwrap on a None value"), calls)
          | some a =>
              match parseU64 a.value with
              | none => (.error (.malformedField a.value), calls)
              | some code_id =>
                  (.ok { code_id := code_id, data := tx_res.deliver_tx }, calls)

/-- Mirror of `CosmClient::instantiate`: send a `MsgInstantiateContract` (no admin, empty
funds, label "cosm-orc"), find the first `instantiate` event of the deliver
phase ("error instantiating code" context when absent) and take its
`_contract_address` attribute with `unwrap` (a panic when absent), returning
its value verbatim. -/
def CosmClient.instantiate (c : CosmClient) (code_id : Nat) (payload : List Nat)
    (signing_key : SigningKey) : Except CosmError InstantiateResponse × List Call :=
  match c.send_tx (.instantiateContract signing_key.address code_id (some "cosm-orc") payload)
      signing_key with
  | (.error e, calls) => (.error e, calls)
  | (.ok tx_res, calls) =>
      match c.find_event tx_res "instantiate" with
      | none => (.error (.eventNotFound "error instantiating code"), calls)
      | some res =>
          match findAttr res.attributes "_contract_address" with
          | none => (.error (.panicked "called unwrap on a None value"), calls)
          | some a =>
              (.ok { address := a.value, data := tx_res.deliver_tx }, calls)

/-- Mirror of `CosmClient::execute`: send a `MsgExecuteContract` (empty funds); no event
extraction, the deliver phase is returned as is. -/
def CosmClient.execute (c : CosmClient) (address : String) (payload : List Nat)
    (signing_key : SigningKey) : Except CosmError ExecResponse × List Call :=
  match c.send_tx (.executeContract signing_key.address address payload) signing_key with
  | (.error e, calls) => (.error e, calls)
  | (.ok tx_res, calls) => (.ok { data := tx_res.deliver_tx }, calls)

/-- Mirror of `CosmClient::query`: one smart-contract-state query and nothing
else. A transport failure or a prost decode failure propagates with the
question-mark operator; otherwise the decoded payload is wrapped in a locally
built `TxResult` with `code = Ok`, `data = Some(payload)` and every other
field defaulted. The ABCI response's own `code` is never read (lines 151-161
inspect only `res.value`), so a chain-side rejection flows through the
success path. -/
def CosmClient.query (c : CosmClient) (_address : String) (_payload : List Nat) :
    Except CosmError QueryResponse × List Call :=
  match c.chain.smartQueryResult with
  | .error e => (.error e, [.abciQuery smartQueryPath])
  | .ok res =>
      match c.chain.decodeSmart res.value with
      | .error e => (.error e, [.abciQuery smartQueryPath])
      | .ok bytes =>
          (.ok { data := { code := .ok, data := some bytes } },
           [.abciQuery smartQueryPath])

instance {ε α : Type} [DecidableEq ε] [DecidableEq α] : DecidableEq (Except ε α) :=
  fun x y =>
    match x, y with
    | .ok a, .ok b =>
        if h : a = b then .isTrue (by rw [h]) else .isFalse (by simp [h])
    | .error a, .error b =>
        if h : a = b then .isTrue (by rw [h]) else .isFalse (by simp [h])
    | .ok _, .error _ => .isFalse (by simp)
    | .error _, .ok _ => .isFalse (by simp)

/-- A code is not an error exactly when it is `ok`. -/
theorem Code.is_err_eq_false {cd : Code} : cd.is_err = false ↔ cd = .ok := by
  cases cd <;> simp [Code.is_err]

/-- The full interaction trace of one `send_tx` run that reaches broadcast:
account resolution, probe signing, simulation, real signing, broadcast. -/
def sendTxTrace (a : BaseAccount) : List Call :=
  [.abciQuery accountPath, .sign a.account_number a.sequence,
   .abciQuery simulatePath, .sign a.account_number a.sequence,
   .broadcastCommit]

/-- Outcome of `send_tx` when the account and simulate endpoints both answer:
the broadcast response with the two phase checks in order, and the full
interaction trace. -/
theorem send_tx_eq (c : CosmClient) (msg : CosmMsg) (key : SigningKey)
    (a : BaseAccount) (gi : GasInfo)
    (hacc : c.chain.accountResult = .ok (some a))
    (hsim : c.chain.simulateResult = .ok (some gi)) :
    c.send_tx msg key =
      (if c.chain.broadcastResult.check_tx.code.is_err then
        (.error (.checkTxFailed c.chain.broadcastResult.check_tx), sendTxTrace a)
      else if c.chain.broadcastResult.deliver_tx.code.is_err then
        (.error (.deliverTxFailed c.chain.broadcastResult.deliver_tx), sendTxTrace a)
      else (.ok c.chain.broadcastResult, sendTxTrace a)) := by
  simp only [CosmClient.send_tx, CosmClient.simulate_gas_fee, hacc, hsim, sendTxTrace]
  split <;> simp_all

/-- A successful `send_tx` returns exactly the broadcast response, and both of
its phases carry an OK code. -/
theorem send_tx_ok {c : CosmClient} {msg : CosmMsg} {key : SigningKey}
    {r : Response} {t : List Call} (h : c.send_tx msg key = (.ok r, t)) :
    r = c.chain.broadcastResult ∧
    c.chain.broadcastResult.check_tx.code = .ok ∧
    c.chain.broadcastResult.deliver_tx.code = .ok := by
  unfold CosmClient.send_tx at h
  split at h
  · simp at h
  · simp at h
  · split at h
    · simp at h
    · split at h
      · simp at h
      · split at h
        · simp at h
        · rename_i hchk hdel
          simp only [Prod.mk.injEq, Except.ok.injEq] at h
          rw [Bool.not_eq_true, Code.is_err_eq_false] at hchk hdel
          exact ⟨h.1.symm, hchk, hdel⟩

/-- A successful `store` presupposes a successful `send_tx` on its message. -/
theorem store_ok_send_tx {c : CosmClient} {p : List Nat} {k : SigningKey}
    {r : StoreCodeResponse} {t : List Call} (h : c.store p k = (.ok r, t)) :
    c.send_tx (.storeCode k.address p) k = (.ok c.chain.broadcastResult, t) := by
  unfold CosmClient.store at h
  split at h
  · simp at h
  · rename_i tx_res calls heq
    obtain ⟨-, -, -⟩ := send_tx_ok heq
    split at h <;> [simp at h; skip]
    split at h <;> [simp at h; skip]
    split at h <;> [simp at h; skip]
    rw [Prod.mk.injEq] at h
    rw [(send_tx_ok heq).1] at heq
    rw [heq, h.2]

/-- A successful `instantiate` presupposes a successful `send_tx`. -/
theorem instantiate_ok_send_tx {c : CosmClient} {cid : Nat} {p : List Nat}
    {k : SigningKey} {r : InstantiateResponse} {t : List Call}
    (h : c.instantiate cid p k = (.ok r, t)) :
    c.send_tx (.instantiateContract k.address cid (some "cosm-orc") p) k =
      (.ok c.chain.broadcastResult, t) := by
  unfold CosmClient.instantiate at h
  split at h
  · simp at h
  · rename_i tx_res calls heq
    split at h <;> [simp at h; skip]
    split at h <;> [simp at h; skip]
    rw [Prod.mk.injEq] at h
    rw [(send_tx_ok heq).1] at heq
    rw [heq, h.2]

/-- A successful `execute` presupposes a successful `send_tx`. -/
theorem execute_ok_send_tx {c : CosmClient} {addr : String} {p : List Nat}
    {k : SigningKey} {r : ExecResponse} {t : List Call}
    (h : c.execute addr p k = (.ok r, t)) :
    c.send_tx (.executeContract k.address addr p) k =
      (.ok c.chain.broadcastResult, t) := by
  unfold CosmClient.execute at h
  split at h
  · simp at h
  · rename_i tx_res calls heq
    rw [Prod.mk.injEq] at h
    rw [(send_tx_ok heq).1] at heq
    rw [heq, h.2]

/-! Concrete fixtures used by witness theorems. -/

def okKey : SigningKey := ⟨"juno1sender"⟩

def okAccount : BaseAccount :=
  { address := "juno1sender", account_number := 7, sequence := 42 }

def okStoreEvent : Event :=
  { type_str := "store_code", attributes := [⟨"code_id", "5"⟩] }

def okInstEvent : Event :=
  { type_str := "instantiate", attributes := [⟨"_contract_address", "juno1contract"⟩] }

def okDeliver : TxResult := { events := [okStoreEvent, okInstEvent] }

def okResp : Response := { check_tx := {}, deliver_tx := okDeliver }

def okCfg : ChainCfg :=
  { denom := "ujuno", chain_id := "testing", gas_prices := 1 / 40,
    gas_adjustment := 13 / 10 }

def okChain : ChainOracle :=
  { accountResult := .ok (some okAccount)
    simulateResult := .ok (some ⟨100000, 100000⟩)
    broadcastResult := okResp
    smartQueryResult := .ok { code := .ok, value := [1, 2, 3] }
    decodeSmart := fun bs => .ok bs }

def okClient : CosmClient := { cfg := okCfg, chain := okChain }

/-- C1: a store, instantiate, or execute invocation returns a typed success
response only if both the check phase and the deliver phase of the broadcast's
commit result report an OK status code; any other combination of phase codes
makes the operation return an error, never a success value. -/
theorem c1_tx_success_requires_both_phases_ok
    (c : CosmClient) (payload : List Nat) (key : SigningKey)
    (code_id : Nat) (addr : String) :
    (((∃ r t, c.store payload key = (.ok r, t)) ∨
      (∃ r t, c.instantiate code_id payload key = (.ok r, t)) ∨
      (∃ r t, c.execute addr payload key = (.ok r, t))) →
        c.chain.broadcastResult.check_tx.code = .ok ∧
        c.chain.broadcastResult.deliver_tx.code = .ok) ∧
    (¬(c.chain.broadcastResult.check_tx.code = .ok ∧
       c.chain.broadcastResult.deliver_tx.code = .ok) →
      (∀ r t, c.store payload key ≠ (.ok r, t)) ∧
      (∀ r t, c.instantiate code_id payload key ≠ (.ok r, t)) ∧
      (∀ r t, c.execute addr payload key ≠ (.ok r, t))) := by
  constructor
  · rintro (⟨r, t, h⟩ | ⟨r, t, h⟩ | ⟨r, t, h⟩)
    · exact (send_tx_ok (store_ok_send_tx h)).2
    · exact (send_tx_ok (instantiate_ok_send_tx h)).2
    · exact (send_tx_ok (execute_ok_send_tx h)).2
  · intro hbad
    refine ⟨fun r t h => ?_, fun r t h => ?_, fun r t h => ?_⟩
    · exact hbad (send_tx_ok (store_ok_send_tx h)).2
    · exact hbad (send_tx_ok (instantiate_ok_send_tx h)).2
    · exact hbad (send_tx_ok (execute_ok_send_tx h)).2

/-- Witness for C1 at a concrete client: a concrete successful store run forces
both phases OK. -/
theorem c1_witness :
    okClient.chain.broadcastResult.check_tx.code = .ok ∧
    okClient.chain.broadcastResult.deliver_tx.code = .ok :=
  (c1_tx_success_requires_both_phases_ok okClient [] okKey 1 "juno1contract").1
    (Or.inl ⟨{ code_id := 5, data := okDeliver },
      [.abciQuery accountPath, .sign 7 42, .abciQuery simulatePath, .sign 7 42,
       .broadcastCommit], by decide⟩)

/-- The saturating cast is the identity on representable nonnegative values. -/
theorem f64AsU64_eq {z : ℤ} (h0 : 0 ≤ z) (hlt : z < 2 ^ 64) : (f64AsU64 z : ℤ) = z := by
  simp only [f64AsU64, if_neg (not_lt.mpr h0)]
  omega

/-- C2: for every simulation response with gas_used G, configured
gas_adjustment a and gas_prices p (nonnegative and with results representable
in 64 bits; `f64` arithmetic modelled as exact rationals), the estimated fee
has gas limit `ceil(G * a)` and fee amount `ceil(gas_limit * p)`. The witness
instantiates G = 100000, a = 13/10, p = 1/40 to gas limit 130000 and fee
amount 3250. -/
theorem c2_gas_fee_ceil_formula
    (c : CosmClient) (account : BaseAccount) (gi : GasInfo)
    (hsim : c.chain.simulateResult = .ok (some gi))
    (hadj : 0 ≤ c.cfg.gas_adjustment) (hpr : 0 ≤ c.cfg.gas_prices)
    (hg : ⌈(gi.gas_used : ℚ) * c.cfg.gas_adjustment⌉ < 2 ^ 64)
    (ha : ⌈(⌈(gi.gas_used : ℚ) * c.cfg.gas_adjustment⌉ : ℚ) * c.cfg.gas_prices⌉ < 2 ^ 64) :
    ∃ fee, (c.simulate_gas_fee account).1 = .ok fee ∧
      (fee.gas_limit : ℤ) = ⌈(gi.gas_used : ℚ) * c.cfg.gas_adjustment⌉ ∧
      ∃ coin, fee.amount = [coin] ∧ coin.denom = c.cfg.denom ∧
        (coin.amount : ℤ) = ⌈(fee.gas_limit : ℚ) * c.cfg.gas_prices⌉ := by
  have hL0 : (0:ℤ) ≤ ⌈(gi.gas_used : ℚ) * c.cfg.gas_adjustment⌉ :=
    Int.ceil_nonneg (mul_nonneg (Nat.cast_nonneg _) hadj)
  have hA0 : (0:ℤ) ≤ ⌈(⌈(gi.gas_used : ℚ) * c.cfg.gas_adjustment⌉ : ℚ) * c.cfg.gas_prices⌉ :=
    Int.ceil_nonneg (mul_nonneg (by exact_mod_cast hL0) hpr)
  have hfee : (c.simulate_gas_fee account).1 = .ok
      { amount := [{ denom := c.cfg.denom
                     amount := f64AsU64 ⌈(⌈(gi.gas_used : ℚ) * c.cfg.gas_adjustment⌉ : ℚ) *
                       c.cfg.gas_prices⌉ }]
        gas_limit := f64AsU64 ⌈(gi.gas_used : ℚ) * c.cfg.gas_adjustment⌉ } := by
    simp [CosmClient.simulate_gas_fee, hsim]
  refine ⟨_, hfee, f64AsU64_eq hL0 hg, _, rfl, rfl, ?_⟩
  rw [f64AsU64_eq hA0 ha]
  have hq : ((f64AsU64 ⌈(gi.gas_used : ℚ) * c.cfg.gas_adjustment⌉ : ℕ) : ℚ) =
      ((⌈(gi.gas_used : ℚ) * c.cfg.gas_adjustment⌉ : ℤ) : ℚ) := by
    exact_mod_cast f64AsU64_eq hL0 hg
  rw [hq]

/-- Witness for C2 at the concrete inputs named by the claim:
G = 100000, a = 1.3, p = 0.025 give gas limit 130000 and fee amount 3250. -/
theorem c2_witness :
    ∃ fee, (okClient.simulate_gas_fee okAccount).1 = .ok fee ∧
      (fee.gas_limit : ℤ) = 130000 ∧
      ∃ coin, fee.amount = [coin] ∧ coin.denom = "ujuno" ∧ (coin.amount : ℤ) = 3250 := by
  obtain ⟨fee, hfee, hgas, coin, hamt, hden, hval⟩ :=
    c2_gas_fee_ceil_formula okClient okAccount ⟨100000, 100000⟩ rfl
      (by norm_num [okClient, okCfg]) (by norm_num [okClient, okCfg])
      (by norm_num [okClient, okCfg]) (by norm_num [okClient, okCfg])
  have hgas130 : (fee.gas_limit : ℤ) = 130000 := by
    rw [hgas]; norm_num [okClient, okCfg]
  have hgq : (fee.gas_limit : ℚ) = 130000 := by exact_mod_cast hgas130
  refine ⟨fee, hfee, hgas130, coin, hamt, by simpa [okClient, okCfg] using hden, ?_⟩
  rw [hval, hgq]
  norm_num [okClient, okCfg]


/-- An `error` result of `send_tx` propagates unchanged through `store`. -/
theorem store_of_send_tx_error {c : CosmClient} {p : List Nat} {k : SigningKey}
    {e : CosmError} {t : List Call}
    (h : c.send_tx (.storeCode k.address p) k = (.error e, t)) :
    c.store p k = (.error e, t) := by
  unfold CosmClient.store
  rw [h]

/-- An `error` result of `send_tx` propagates unchanged through `instantiate`. -/
theorem instantiate_of_send_tx_error {c : CosmClient} {cid : Nat} {p : List Nat}
    {k : SigningKey} {e : CosmError} {t : List Call}
    (h : c.send_tx (.instantiateContract k.address cid (some "cosm-orc") p) k =
      (.error e, t)) :
    c.instantiate cid p k = (.error e, t) := by
  unfold CosmClient.instantiate
  rw [h]

/-- An `error` result of `send_tx` propagates unchanged through `execute`. -/
theorem execute_of_send_tx_error {c : CosmClient} {addr : String} {p : List Nat}
    {k : SigningKey} {e : CosmError} {t : List Call}
    (h : c.send_tx (.executeContract k.address addr p) k = (.error e, t)) :
    c.execute addr p k = (.error e, t) := by
  unfold CosmClient.execute
  rw [h]

/-- The same client with the deliver phase's event list replaced, all else
unchanged. -/
def withDeliverEvents (c : CosmClient) (ev : List Event) : CosmClient :=
  { c with chain := { c.chain with broadcastResult :=
      { c.chain.broadcastResult with deliver_tx :=
        { c.chain.broadcastResult.deliver_tx with events := ev } } } }

/-- C3: when the check (mempool-admission) phase reports a non-OK code, the
operation fails with the mempool-rejection error carrying the raw check-phase
payload, and the deliver phase's events are never read: the whole run is
unchanged under any replacement of the deliver event list. -/
theorem c3_check_rejection_ignores_deliver_events
    (c : CosmClient) (msg : CosmMsg) (key : SigningKey)
    (payload : List Nat) (code_id : Nat) (addr : String)
    (a : BaseAccount) (gi : GasInfo) (n : Nat)
    (hacc : c.chain.accountResult = .ok (some a))
    (hsim : c.chain.simulateResult = .ok (some gi))
    (hchk : c.chain.broadcastResult.check_tx.code = .err n) :
    (c.send_tx msg key).1 = .error (.checkTxFailed c.chain.broadcastResult.check_tx) ∧
    (c.store payload key).1 = .error (.checkTxFailed c.chain.broadcastResult.check_tx) ∧
    (c.instantiate code_id payload key).1 =
      .error (.checkTxFailed c.chain.broadcastResult.check_tx) ∧
    (c.execute addr payload key).1 =
      .error (.checkTxFailed c.chain.broadcastResult.check_tx) ∧
    ∀ ev : List Event,
      (withDeliverEvents c ev).send_tx msg key = c.send_tx msg key ∧
      (withDeliverEvents c ev).store payload key = c.store payload key ∧
      (withDeliverEvents c ev).instantiate code_id payload key =
        c.instantiate code_id payload key ∧
      (withDeliverEvents c ev).execute addr payload key = c.execute addr payload key := by
  have hsend : ∀ m : CosmMsg, c.send_tx m key =
      (.error (.checkTxFailed c.chain.broadcastResult.check_tx), sendTxTrace a) := by
    intro m
    rw [send_tx_eq c m key a gi hacc hsim, if_pos]
    rw [hchk]; rfl
  have hsend' : ∀ (ev : List Event) (m : CosmMsg),
      (withDeliverEvents c ev).send_tx m key =
        (.error (.checkTxFailed c.chain.broadcastResult.check_tx), sendTxTrace a) := by
    intro ev m
    rw [send_tx_eq (withDeliverEvents c ev) m key a gi hacc hsim, if_pos]
    · rfl
    · rw [show (withDeliverEvents c ev).chain.broadcastResult.check_tx =
          c.chain.broadcastResult.check_tx from rfl, hchk]; rfl
  refine ⟨by rw [hsend], ?_, ?_, ?_, ?_⟩
  · rw [store_of_send_tx_error (hsend _)]
  · rw [instantiate_of_send_tx_error (hsend _)]
  · rw [execute_of_send_tx_error (hsend _)]
  · intro ev
    refine ⟨by rw [hsend, hsend'], ?_, ?_, ?_⟩
    · rw [store_of_send_tx_error (hsend _), store_of_send_tx_error (hsend' ev _)]
    · rw [instantiate_of_send_tx_error (hsend _),
        instantiate_of_send_tx_error (hsend' ev _)]
    · rw [execute_of_send_tx_error (hsend _), execute_of_send_tx_error (hsend' ev _)]

/-- A client whose broadcast's check phase reports code 5. -/
def checkFailClient : CosmClient :=
  { cfg := okCfg, chain := { okChain with broadcastResult :=
      { check_tx := { code := .err 5, log := "rejected" }, deliver_tx := okDeliver } } }

/-- Witness for C3: a concrete run with a failing check phase. -/
theorem c3_witness :
    (checkFailClient.store [] okKey).1 =
      .error (.checkTxFailed checkFailClient.chain.broadcastResult.check_tx) :=
  (c3_check_rejection_ignores_deliver_events checkFailClient
    (.storeCode "juno1sender" []) okKey [] 1 "juno1contract" okAccount
    ⟨100000, 100000⟩ 5 rfl rfl rfl).2.1


/-- A found event is the first one of its type: everything before it in the
scanned list has a different type. -/
theorem findEventIn_some {l : List Event} {k : String} {e : Event}
    (h : findEventIn l k = some e) :
    e.type_str = k ∧ ∃ pre post, l = pre ++ e :: post ∧ ∀ x ∈ pre, x.type_str ≠ k := by
  induction l with
  | nil => simp [findEventIn] at h
  | cons a rest ih =>
      rw [findEventIn] at h
      split at h
      · rename_i ht
        rw [Option.some.injEq] at h
        subst h
        exact ⟨ht, [], rest, rfl, by simp⟩
      · rename_i hne
        obtain ⟨ht, pre, post, hl, hpre⟩ := ih h
        refine ⟨ht, a :: pre, post, by rw [hl]; rfl, ?_⟩
        intro x hx
        rcases List.mem_cons.mp hx with rfl | hx
        · exact hne
        · exact hpre x hx

/-- The scan returns nothing exactly when no event of the requested type is in
the list. -/
theorem findEventIn_none {l : List Event} {k : String} :
    findEventIn l k = none ↔ ∀ x ∈ l, x.type_str ≠ k := by
  induction l with
  | nil => simp [findEventIn]
  | cons a rest ih =>
      rw [findEventIn]
      split <;> simp_all

/-- Outcome of `send_tx` when everything succeeds: the broadcast response and
the full trace. -/
theorem send_tx_ok_eq (c : CosmClient) (msg : CosmMsg) (key : SigningKey)
    (a : BaseAccount) (gi : GasInfo)
    (hacc : c.chain.accountResult = .ok (some a))
    (hsim : c.chain.simulateResult = .ok (some gi))
    (hchk : c.chain.broadcastResult.check_tx.code = .ok)
    (hdel : c.chain.broadcastResult.deliver_tx.code = .ok) :
    c.send_tx msg key = (.ok c.chain.broadcastResult, sendTxTrace a) := by
  rw [send_tx_eq c msg key a gi hacc hsim, hchk, hdel]
  simp [Code.is_err]

/-- C4: event extraction scans the deliver phase's events in emission order
and returns the first event whose type equals the requested name; when no
event of that type exists, store and instantiate fail with the descriptive
event-not-found error instead of returning any success value. -/
theorem c4_find_event_first_match_or_event_not_found :
    (∀ (c : CosmClient) (res : Response) (k : String) (e : Event),
       c.find_event res k = some e →
         e.type_str = k ∧ ∃ pre post, res.deliver_tx.events = pre ++ e :: post ∧
           ∀ x ∈ pre, x.type_str ≠ k) ∧
    (∀ (c : CosmClient) (res : Response) (k : String),
       c.find_event res k = none ↔ ∀ x ∈ res.deliver_tx.events, x.type_str ≠ k) ∧
    (∀ (c : CosmClient) (payload : List Nat) (key : SigningKey)
       (a : BaseAccount) (gi : GasInfo),
       c.chain.accountResult = .ok (some a) →
       c.chain.simulateResult = .ok (some gi) →
       c.chain.broadcastResult.check_tx.code = .ok →
       c.chain.broadcastResult.deliver_tx.code = .ok →
       (∀ x ∈ c.chain.broadcastResult.deliver_tx.events, x.type_str ≠ "store_code") →
       c.store payload key =
         (.error (.eventNotFound "error storing code"), sendTxTrace a)) ∧
    (∀ (c : CosmClient) (code_id : Nat) (payload : List Nat) (key : SigningKey)
       (a : BaseAccount) (gi : GasInfo),
       c.chain.accountResult = .ok (some a) →
       c.chain.simulateResult = .ok (some gi) →
       c.chain.broadcastResult.check_tx.code = .ok →
       c.chain.broadcastResult.deliver_tx.code = .ok →
       (∀ x ∈ c.chain.broadcastResult.deliver_tx.events, x.type_str ≠ "instantiate") →
       c.instantiate code_id payload key =
         (.error (.eventNotFound "error instantiating code"), sendTxTrace a)) := by
  refine ⟨fun c res k e h => findEventIn_some h,
          fun c res k => findEventIn_none, ?_, ?_⟩
  · intro c payload key a gi hacc hsim hchk hdel hnone
    have hfind : c.find_event c.chain.broadcastResult "store_code" = none := by
      rw [CosmClient.find_event, findEventIn_none]; exact hnone
    simp [CosmClient.store, send_tx_ok_eq c _ key a gi hacc hsim hchk hdel, hfind]
  · intro c code_id payload key a gi hacc hsim hchk hdel hnone
    have hfind : c.find_event c.chain.broadcastResult "instantiate" = none := by
      rw [CosmClient.find_event, findEventIn_none]; exact hnone
    simp [CosmClient.instantiate, send_tx_ok_eq c _ key a gi hacc hsim hchk hdel, hfind]

/-- A client whose successful deliver phase emits no contract-lifecycle event. -/
def noEventClient : CosmClient :=
  { cfg := okCfg, chain := { okChain with broadcastResult :=
      { check_tx := {}, deliver_tx := { events := [⟨"transfer", []⟩] } } } }

/-- Witness for C4: a concrete store run whose deliver phase lacks a
`store_code` event fails with the descriptive error. -/
theorem c4_witness :
    noEventClient.store [] okKey =
      (.error (.eventNotFound "error storing code"), sendTxTrace okAccount) :=
  c4_find_event_first_match_or_event_not_found.2.2.1 noEventClient [] okKey
    okAccount ⟨100000, 100000⟩ rfl rfl rfl rfl (by decide)


/-- A client whose matched `store_code` event lacks the `code_id` attribute. -/
def attrMissClient : CosmClient :=
  { cfg := okCfg, chain := { okChain with broadcastResult :=
      { check_tx := {}, deliver_tx :=
        { events := [⟨"store_code", [⟨"sender", "juno1sender"⟩]⟩] } } } }

/-- Counterexample to C5 as stated: with a matched `store_code` event whose
attribute list lacks `code_id`, the store operation does not return a reported
error: it crashes with a Rust panic (`unwrap` on `None`,
cosm_client.rs line 66), modelled by the `panicked` outcome. -/
theorem c5_counterexample :
    (attrMissClient.store [] okKey).1 =
      .error (.panicked "called unwrap on a None value") ∧
    (CosmError.panicked "called unwrap on a None value").isPanic = true := by
  decide

/-- C5 (amended): whenever the matched event's attribute list lacks the
expected key (`code_id` for store, `_contract_address` for instantiate), the
operation panics via `unwrap` on `None` — a crash, not a reported error. -/
theorem c5_missing_attribute_panics
    (c : CosmClient) (payload : List Nat) (code_id : Nat) (key : SigningKey)
    (a : BaseAccount) (gi : GasInfo)
    (hacc : c.chain.accountResult = .ok (some a))
    (hsim : c.chain.simulateResult = .ok (some gi))
    (hchk : c.chain.broadcastResult.check_tx.code = .ok)
    (hdel : c.chain.broadcastResult.deliver_tx.code = .ok) :
    (∀ e, c.find_event c.chain.broadcastResult "store_code" = some e →
       findAttr e.attributes "code_id" = none →
       c.store payload key =
         (.error (.panicked "called unwrap on a None value"), sendTxTrace a)) ∧
    (∀ e, c.find_event c.chain.broadcastResult "instantiate" = some e →
       findAttr e.attributes "_contract_address" = none →
       c.instantiate code_id payload key =
         (.error (.panicked "called unwrap on a None value"), sendTxTrace a)) := by
  constructor
  · intro e hfind hattr
    simp [CosmClient.store, send_tx_ok_eq c _ key a gi hacc hsim hchk hdel,
      hfind, hattr]
  · intro e hfind hattr
    simp [CosmClient.instantiate, send_tx_ok_eq c _ key a gi hacc hsim hchk hdel,
      hfind, hattr]

/-- Witness for the amended C5 at a concrete client. -/
theorem c5_witness :
    attrMissClient.store [] okKey =
      (.error (.panicked "called unwrap on a None value"), sendTxTrace okAccount) :=
  (c5_missing_attribute_panics attrMissClient [] 1 okKey okAccount
      ⟨100000, 100000⟩ rfl rfl rfl rfl).1
    ⟨"store_code", [⟨"sender", "juno1sender"⟩]⟩ (by decide) (by decide)


/-- The character of a decimal digit. -/
def digitChar (d : Nat) : Char := Char.ofNat (48 + d)

theorem digitChar_isDigit {d : Nat} (h : d < 10) : (digitChar d).isDigit = true := by
  interval_cases d <;> decide

theorem digitChar_toNat {d : Nat} (h : d < 10) : (digitChar d).toNat = 48 + d := by
  interval_cases d <;> decide

/-- Modelled from the spec: the chain-side module encodes a numeric attribute
value (such as a stored contract's code id) as its decimal string. -/
def decimalChars (n : Nat) : List Char :=
  if n = 0 then ['0'] else (Nat.digits 10 n).reverse.map digitChar

/-- Modelled from the spec: decimal encoding of a code id, as a string. -/
def encodeCodeId (n : Nat) : String := String.mk (decimalChars n)

/-- Stripping the sign is the identity on all-digit strings. -/
theorem stripPlus_of_digits {cs : List Char} (h : ∀ c ∈ cs, c.isDigit = true) :
    stripPlus cs = cs := by
  cases cs with
  | nil => rfl
  | cons c rest =>
      have hc : c.isDigit = true := h c (List.mem_cons_self c rest)
      have hne : c ≠ '+' := by rintro rfl; exact absurd hc (by decide)
      simp [stripPlus, hne]

/-- Folding the base-10 accumulator over the big-endian character rendering of
a digit list recovers the little-endian value of the digits. -/
theorem foldl_digitChar : ∀ (L : List Nat) (a : Nat), (∀ d ∈ L, d < 10) →
    (L.reverse.map digitChar).foldl (fun acc c => acc * 10 + (c.toNat - 48)) a
      = a * 10 ^ L.length + Nat.ofDigits 10 L := by
  intro L
  induction L with
  | nil => intro a h; simp
  | cons d ds ih =>
      intro a h
      have hd : d < 10 := h d (List.mem_cons_self d ds)
      have hds : ∀ x ∈ ds, x < 10 := fun x hx => h x (List.mem_cons_of_mem d hx)
      rw [List.reverse_cons, List.map_append, List.foldl_append, ih a hds]
      simp only [List.map_cons, List.map_nil, List.foldl_cons, List.foldl_nil,
        digitChar_toNat hd, Nat.ofDigits_cons,
        List.length_cons, pow_succ]
      ring_nf
      omega


/-- Decimal round trip: parsing the decimal rendering of any value below 2^64
gives the value back. -/
theorem parseU64Chars_decimal {n : Nat} (h : n < 2 ^ 64) :
    parseU64Chars (decimalChars n) = some n := by
  rcases eq_or_ne n 0 with rfl | h0
  · decide
  · have hdig : ∀ d ∈ Nat.digits 10 n, d < 10 :=
      fun d hd => Nat.digits_lt_base (by norm_num) hd
    have hchars : ∀ c ∈ (Nat.digits 10 n).reverse.map digitChar, c.isDigit = true := by
      intro c hc
      rw [List.mem_map] at hc
      obtain ⟨d, hd, rfl⟩ := hc
      exact digitChar_isDigit (hdig d (List.mem_reverse.mp hd))
    have hne : (Nat.digits 10 n).reverse.map digitChar ≠ [] := by
      simp [Nat.digits_ne_nil_iff_ne_zero.mpr h0]
    rw [decimalChars, if_neg h0, parseU64Chars, stripPlus_of_digits hchars]
    rw [if_neg (by simpa [List.isEmpty_iff] using hne),
      if_pos (List.all_eq_true.mpr hchars),
      foldl_digitChar (Nat.digits 10 n) 0 hdig]
    simp only [Nat.ofDigits_digits, Nat.zero_mul, Nat.zero_add]
    rw [if_pos (by exact_mod_cast h)]

/-- Decimal round trip at the string level. -/
theorem parseU64_encode {n : Nat} (h : n < 2 ^ 64) :
    parseU64 (encodeCodeId n) = some n :=
  parseU64Chars_decimal h


/-- C6: a successful store returns exactly the unsigned integer parsed from
the `code_id` attribute of the first `store_code` event of the deliver phase;
encoding an id N into that attribute yields extracted value N; and an
unparseable attribute value fails with the malformed-response error. -/
theorem c6_store_code_id_roundtrip :
    (∀ (c : CosmClient) (payload : List Nat) (key : SigningKey)
       (r : StoreCodeResponse) (t : List Call),
       c.store payload key = (.ok r, t) →
       ∃ e attr, c.find_event c.chain.broadcastResult "store_code" = some e ∧
         findAttr e.attributes "code_id" = some attr ∧
         parseU64 attr.value = some r.code_id ∧
         r.data = c.chain.broadcastResult.deliver_tx) ∧
    (∀ (c : CosmClient) (payload : List Nat) (key : SigningKey)
       (a : BaseAccount) (gi : GasInfo) (n : Nat) (rest : List Tag)
       (evs : List Event),
       c.chain.accountResult = .ok (some a) →
       c.chain.simulateResult = .ok (some gi) →
       c.chain.broadcastResult.check_tx.code = .ok →
       c.chain.broadcastResult.deliver_tx.code = .ok →
       c.chain.broadcastResult.deliver_tx.events =
         { type_str := "store_code",
           attributes := ⟨"code_id", encodeCodeId n⟩ :: rest } :: evs →
       n < 2 ^ 64 →
       (c.store payload key).1 =
         .ok { code_id := n, data := c.chain.broadcastResult.deliver_tx }) ∧
    (∀ (c : CosmClient) (payload : List Nat) (key : SigningKey)
       (a : BaseAccount) (gi : GasInfo) (e : Event) (attr : Tag),
       c.chain.accountResult = .ok (some a) →
       c.chain.simulateResult = .ok (some gi) →
       c.chain.broadcastResult.check_tx.code = .ok →
       c.chain.broadcastResult.deliver_tx.code = .ok →
       c.find_event c.chain.broadcastResult "store_code" = some e →
       findAttr e.attributes "code_id" = some attr →
       parseU64 attr.value = none →
       (c.store payload key).1 = .error (.malformedField attr.value)) := by
  refine ⟨?_, ?_, ?_⟩
  · intro c payload key r t h
    unfold CosmClient.store at h
    split at h
    · simp at h
    · rename_i tx_res calls heq
      obtain ⟨rfl, -, -⟩ := send_tx_ok heq
      split at h
      · simp at h
      · rename_i e hfind
        split at h
        · simp at h
        · rename_i attr hattr
          split at h
          · simp at h
          · rename_i cid hparse
            simp only [Prod.mk.injEq, Except.ok.injEq] at h
            refine ⟨e, attr, hfind, hattr, ?_, ?_⟩
            · rw [hparse, ← h.1]
            · rw [← h.1]
  · intro c payload key a gi n rest evs hacc hsim hchk hdel hev hn
    have hfind : c.find_event c.chain.broadcastResult "store_code" =
        some { type_str := "store_code",
               attributes := ⟨"code_id", encodeCodeId n⟩ :: rest } := by
      rw [CosmClient.find_event, hev, findEventIn]
      simp
    have hattr : findAttr (⟨"code_id", encodeCodeId n⟩ :: rest) "code_id" =
        some ⟨"code_id", encodeCodeId n⟩ := by
      rw [findAttr]
      simp
    simp [CosmClient.store, send_tx_ok_eq c _ key a gi hacc hsim hchk hdel,
      hfind, hattr, parseU64_encode hn]
  · intro c payload key a gi e attr hacc hsim hchk hdel hfind hattr hparse
    simp [CosmClient.store, send_tx_ok_eq c _ key a gi hacc hsim hchk hdel,
      hfind, hattr, hparse]

/-- A client whose deliver phase carries the decimal encoding of code id 77. -/
def encClient : CosmClient :=
  { cfg := okCfg, chain := { okChain with broadcastResult :=
      { check_tx := {}, deliver_tx :=
        { events := [{ type_str := "store_code",
                       attributes := [⟨"code_id", encodeCodeId 77⟩] }] } } } }

/-- Witness for C6: storing against a chain that encodes code id 77 decodes
back to 77. -/
theorem c6_witness :
    (encClient.store [] okKey).1 =
      .ok { code_id := 77, data := encClient.chain.broadcastResult.deliver_tx } :=
  c6_store_code_id_roundtrip.2.1 encClient [] okKey okAccount ⟨100000, 100000⟩
    77 [] [] rfl rfl rfl rfl rfl (by norm_num)


/-- C7: a query performs no account resolution, no gas simulation, no signing
and no broadcast: its interaction trace is exactly one smart-contract-state
query call. -/
theorem c7_query_is_single_query_call (c : CosmClient) (address : String)
    (payload : List Nat) :
    (c.query address payload).2 = [.abciQuery smartQueryPath] ∧
    Call.abciQuery accountPath ∉ (c.query address payload).2 ∧
    Call.abciQuery simulatePath ∉ (c.query address payload).2 ∧
    (∀ n s, Call.sign n s ∉ (c.query address payload).2) ∧
    Call.broadcastCommit ∉ (c.query address payload).2 := by
  have h : (c.query address payload).2 = [.abciQuery smartQueryPath] := by
    unfold CosmClient.query
    split
    · rfl
    · split <;> rfl
  refine ⟨h, ?_, ?_, ?_, ?_⟩ <;>
    simp [h, accountPath, simulatePath, smartQueryPath]

/-- Witness for C7 at a concrete client: the whole trace is the single query
call. -/
theorem c7_witness :
    (okClient.query "juno1contract" []).2 = [.abciQuery smartQueryPath] :=
  (c7_query_is_single_query_call okClient "juno1contract" []).1

/-- A client whose chain rejects the smart-contract-state query: the
`abci_query` call itself succeeds (no transport error) and returns the
rejection as an ABCI response with code 4 and an empty value, which the
external prost codec decodes to the default message with empty data. -/
def chainRejectClient : CosmClient :=
  { cfg := okCfg, chain := { okChain with
      smartQueryResult := .ok { code := .err 4, value := [] } } }

/-- C8 (code bug): at a chain-side rejected query — a non-zero ABCI response
code with an empty value, no transport error, the empty buffer decoding to
the default message — the query operation does not return a query-failed
error: it never inspects the response code and returns a fabricated success
whose payload is empty. The claim (and the spec's `QueryFailed` taxonomy) is
the evident intent; the code silently swallows the failure. -/
theorem c8_chain_rejected_query_swallowed :
    chainRejectClient.chain.smartQueryResult =
      .ok { code := .err 4, value := [] } ∧
    chainRejectClient.chain.decodeSmart [] = .ok [] ∧
    (chainRejectClient.query "juno1contract" []).1 =
      .ok { data := { code := .ok, data := some [], log := "", info := "",
                      gas_wanted := 0, gas_used := 0, events := [],
                      codespace := "" } } :=
  ⟨rfl, rfl, rfl⟩

/-- C10: a successful query returns a locally fabricated transaction result:
code OK, data the decoded payload, every other field default, and the run
performs no broadcast, so nothing of it reflects an on-chain commit. -/
theorem c10_query_wraps_fabricated_tx_result (c : CosmClient) (address : String)
    (payload : List Nat) (res : AbciQuery) (bytes : List Nat)
    (h : c.chain.smartQueryResult = .ok res)
    (hdec : c.chain.decodeSmart res.value = .ok bytes) :
    c.query address payload =
      (.ok { data := { code := .ok, data := some bytes, log := "", info := "",
                       gas_wanted := 0, gas_used := 0, events := [],
                       codespace := "" } },
       [.abciQuery smartQueryPath]) ∧
    Call.broadcastCommit ∉ (c.query address payload).2 := by
  have hq : c.query address payload =
      (.ok { data := { code := .ok, data := some bytes, log := "", info := "",
                       gas_wanted := 0, gas_used := 0, events := [],
                       codespace := "" } },
       [.abciQuery smartQueryPath]) := by
    simp [CosmClient.query, h, hdec]
  exact ⟨hq, by rw [hq]; simp⟩

/-- Witness for C10 at a concrete client and payload. -/
theorem c10_witness :
    okClient.query "juno1contract" [7] =
      (.ok { data := { code := .ok, data := some [1, 2, 3], log := "", info := "",
                       gas_wanted := 0, gas_used := 0, events := [],
                       codespace := "" } },
       [.abciQuery smartQueryPath]) :=
  (c10_query_wraps_fabricated_tx_result okClient "juno1contract" [7]
    { code := .ok, value := [1, 2, 3] } [1, 2, 3] rfl rfl).1


/-- Under resolved account and simulation, `send_tx` produces the canonical
five-call trace whatever the broadcast outcome. -/
theorem send_tx_pair (c : CosmClient) (msg : CosmMsg) (key : SigningKey)
    (a : BaseAccount) (gi : GasInfo)
    (hacc : c.chain.accountResult = .ok (some a))
    (hsim : c.chain.simulateResult = .ok (some gi)) :
    ∃ res, c.send_tx msg key = (res, sendTxTrace a) := by
  rw [send_tx_eq c msg key a gi hacc hsim]
  split
  · exact ⟨_, rfl⟩
  · split <;> exact ⟨_, rfl⟩

/-- Operation `store` adds no interaction beyond `send_tx`. -/
theorem store_snd {c : CosmClient} {p : List Nat} {k : SigningKey}
    {res : Except CosmError Response} {t : List Call}
    (h : c.send_tx (.storeCode k.address p) k = (res, t)) :
    (c.store p k).2 = t := by
  unfold CosmClient.store
  rw [h]
  cases res with
  | error e => rfl
  | ok tx =>
      dsimp only
      split
      · rfl
      · split
        · rfl
        · split <;> rfl

/-- Operation `instantiate` adds no interaction beyond `send_tx`. -/
theorem instantiate_snd {c : CosmClient} {cid : Nat} {p : List Nat} {k : SigningKey}
    {res : Except CosmError Response} {t : List Call}
    (h : c.send_tx (.instantiateContract k.address cid (some "cosm-orc") p) k = (res, t)) :
    (c.instantiate cid p k).2 = t := by
  unfold CosmClient.instantiate
  rw [h]
  cases res with
  | error e => rfl
  | ok tx =>
      dsimp only
      split
      · rfl
      · split <;> rfl

/-- Operation `execute` adds no interaction beyond `send_tx`. -/
theorem execute_snd {c : CosmClient} {addr : String} {p : List Nat} {k : SigningKey}
    {res : Except CosmError Response} {t : List Call}
    (h : c.send_tx (.executeContract k.address addr p) k = (res, t)) :
    (c.execute addr p k).2 = t := by
  unfold CosmClient.execute
  rw [h]
  cases res with
  | error e => rfl
  | ok tx => rfl

/-- Every sign call of the canonical trace uses the freshly resolved account. -/
theorem sendTxTrace_sign (a : BaseAccount) :
    ∀ n s, Call.sign n s ∈ sendTxTrace a → n = a.account_number ∧ s = a.sequence := by
  intro n s h
  simp [sendTxTrace] at h
  exact h

/-- C9: every store, instantiate or execute invocation resolves the signer's
account from the chain during that invocation — the account query is the very
first interaction and occurs exactly once — and every signing it performs uses
exactly the values the chain just returned; a later invocation against a chain
now reporting a different account signs with the new values, so nothing is
cached across calls. -/
theorem c9_account_resolved_fresh_each_invocation
    (c : CosmClient) (payload : List Nat) (code_id : Nat) (addr : String)
    (key : SigningKey) (a : BaseAccount) (gi : GasInfo)
    (hacc : c.chain.accountResult = .ok (some a))
    (hsim : c.chain.simulateResult = .ok (some gi)) :
    ((c.store payload key).2 = sendTxTrace a ∧
     (c.instantiate code_id payload key).2 = sendTxTrace a ∧
     (c.execute addr payload key).2 = sendTxTrace a) ∧
    (sendTxTrace a).head? = some (.abciQuery accountPath) ∧
    (sendTxTrace a).count (.abciQuery accountPath) = 1 ∧
    (∀ n s, Call.sign n s ∈ sendTxTrace a →
       n = a.account_number ∧ s = a.sequence) ∧
    (∀ (c₂ : CosmClient) (a₂ : BaseAccount) (gi₂ : GasInfo),
       c₂.chain.accountResult = .ok (some a₂) →
       c₂.chain.simulateResult = .ok (some gi₂) →
       ∀ n s, Call.sign n s ∈ (c₂.store payload key).2 →
         n = a₂.account_number ∧ s = a₂.sequence) := by
  obtain ⟨res₁, h₁⟩ := send_tx_pair c (.storeCode key.address payload) key a gi hacc hsim
  obtain ⟨res₂, h₂⟩ := send_tx_pair c
    (.instantiateContract key.address code_id (some "cosm-orc") payload) key a gi hacc hsim
  obtain ⟨res₃, h₃⟩ := send_tx_pair c (.executeContract key.address addr payload) key a gi
    hacc hsim
  refine ⟨⟨store_snd h₁, instantiate_snd h₂, execute_snd h₃⟩, rfl, ?_, sendTxTrace_sign a, ?_⟩
  · simp [sendTxTrace, accountPath, simulatePath, List.count_cons]
  · intro c₂ a₂ gi₂ hacc₂ hsim₂ n s hmem
    obtain ⟨res₄, h₄⟩ := send_tx_pair c₂ (.storeCode key.address payload) key a₂ gi₂ hacc₂ hsim₂
    rw [store_snd h₄] at hmem
    exact sendTxTrace_sign a₂ n s hmem

/-- The resolved account one transaction later: the sequence advanced to 43. -/
def okAccount43 : BaseAccount :=
  { address := "juno1sender", account_number := 7, sequence := 43 }

/-- The same chain one transaction later. -/
def okClient43 : CosmClient :=
  { cfg := okCfg, chain := { okChain with accountResult := .ok (some okAccount43) } }

/-- Witness for C9: two invocations against chains reporting different
sequence numbers sign with the respective fresh values 42 and 43. -/
theorem c9_witness :
    (okClient.store [] okKey).2 = sendTxTrace okAccount ∧
    ∀ n s, Call.sign n s ∈ (okClient43.store [] okKey).2 →
      n = okAccount43.account_number ∧ s = okAccount43.sequence := by
  constructor
  · exact (c9_account_resolved_fresh_each_invocation okClient [] 1 "juno1contract" okKey
      okAccount ⟨100000, 100000⟩ rfl rfl).1.1
  · exact (c9_account_resolved_fresh_each_invocation okClient [] 1 "juno1contract" okKey
      okAccount ⟨100000, 100000⟩ rfl rfl).2.2.2.2
      okClient43 okAccount43 ⟨100000, 100000⟩ rfl rfl

end CosmOrc
